import Mathlib

/-!
Verification of the async I2C driver in `src/hal/src/sercom/i2c/async_api.rs`.

The driver coordinates a cooperative task with a hardware interrupt handler:
`InterruptHandler::on_interrupt` masks pending interrupt-enable bits and wakes
the instance's waker; `I2cFuture::wait_flags` is the suspension primitive; the
byte-wise engine (`write`, `read`, `write_read`) and the DMA engine
(`dma::I2cFuture::{write, read, write_read}`) sit on top.  External
collaborators (the register access layer and the DMA engine) are modelled as
oracles (`BusEnv`, `DmaEnv`); each engine operation is embedded as a function
from an oracle and its arguments to a result together with the ordered trace of
register-layer operations it issues.
-/

namespace AsyncI2c

/-- Modelled from the spec: the recognized status flag set (`sercom::i2c::Flags`,
defined outside `src/`) — an independent-bit mapping over the recognized
hardware conditions: byte-transmitted (MB), byte-received (SB) and bus-error
(ERROR), combinable by union. -/
structure Flags where
  mb : Bool
  sb : Bool
  error : Bool
deriving DecidableEq, Repr

/-- Bitwise intersection of two flag sets (`a & b` of the bitflags type). -/
def Flags.inter (a b : Flags) : Flags :=
  ⟨a.mb && b.mb, a.sb && b.sb, a.error && b.error⟩

/-- Bitwise union of two flag sets (`a | b` of the bitflags type). -/
def Flags.union (a b : Flags) : Flags :=
  ⟨a.mb || b.mb, a.sb || b.sb, a.error || b.error⟩

/-- `Flags::is_empty`. -/
def Flags.isEmpty (a : Flags) : Bool :=
  !(a.mb || a.sb || a.error)

/-- `Flags::intersects`: `a & b` is non-empty. -/
def Flags.intersects (a b : Flags) : Bool :=
  !(Flags.inter a b).isEmpty

/-- `Flags::contains` of the bitflags crate: all bits of `b` are set in `a`,
i.e. `a & b == b`. -/
def Flags.contains (a b : Flags) : Bool :=
  Flags.inter a b == b

/-- Clearing the bits of `m` from `a` (the effect of writing `m` to INTENCLR,
or of `a & !m`). -/
def Flags.clear (a m : Flags) : Flags :=
  ⟨a.mb && !m.mb, a.sb && !m.sb, a.error && !m.error⟩

/-- The empty flag set. -/
def Flags.empty : Flags := ⟨false, false, false⟩

/-- `Flags::all()`: every recognized flag. -/
def Flags.all : Flags := ⟨true, true, true⟩

/-- Byte-transmitted (master on bus) flag. -/
def Flags.MB : Flags := ⟨true, false, false⟩

/-- Byte-received (slave on bus) flag. -/
def Flags.SB : Flags := ⟨false, true, false⟩

/-- Bus-error flag. -/
def Flags.ERROR : Flags := ⟨false, false, true⟩

/-- Per-instance shared interrupt state: the recognized part of the INTENSET
register (which interrupt sources are enabled) and the waker slot, which holds
at most one registered task waker, identified by a number. -/
structure WaitState where
  intenset : Flags
  waker : Option Nat
deriving DecidableEq, Repr

/-- Result of one poll of a future. -/
inductive PollRes
  | ready
  | pending
deriving DecidableEq, Repr

/-- `InterruptHandler::on_interrupt`: reads the raw INTFLAG register; `pending`
is its recognized part (`Flags::from_bits_truncate`).  Under the guard
`flags_to_check.contains(flags_pending)` — with `flags_to_check = Flags::all()`
— it writes the pending bits to INTENCLR (masking those interrupt sources,
leaving the status bits set) and invokes `wake()` on the instance's waker slot.
Returns the new state and whether `wake()` was invoked. -/
def on_interrupt (pending : Flags) (st : WaitState) : WaitState × Bool :=
  if Flags.contains Flags.all pending then
    (⟨Flags.clear st.intenset pending, st.waker⟩, true)
  else
    (st, false)

/-- One poll of the `poll_fn` closure inside `I2cFuture::wait_flags`.
`s1` and `s2` are the two status-register reads performed during this poll
(the status may change between them), `w` identifies the polling task's waker.
Mirrors the source: return Ready if `flagsToWait` intersects the first status
read; otherwise disable all recognized interrupt sources, register the waker
(overwriting the slot), enable the interrupt sources for `flagsToWait`, re-read
the status, and return Ready or Pending according to the second read. -/
def wait_flags_poll (flagsToWait : Flags) (w : Nat) (s1 s2 : Flags)
    (st : WaitState) : PollRes × WaitState :=
  if Flags.intersects flagsToWait s1 then
    (.ready, st)
  else
    let disabled := Flags.clear st.intenset Flags.all
    let st1 : WaitState := ⟨Flags.union disabled flagsToWait, some w⟩
    if Flags.intersects flagsToWait s2 then (.ready, st1) else (.pending, st1)

/-- Modelled from the spec: the failure kind reported by the external DMA
engine, wrapped by the driver into its own error type. -/
inductive DmacError
  | transferError
deriving DecidableEq, Repr

/-- Modelled from the spec: the driver error type (`i2c::Error`, defined
outside `src/`) — bus-level error kinds surfaced by the register layer, plus a
wrapped DMA failure kind. -/
inductive Error
  | busError
  | arbitrationLost
  | addressError
  | dma (e : DmacError)
deriving DecidableEq, Repr

/-- Oracle for the external register access layer during one engine operation:
the results of the start-write and start-read commands, the result of the k-th
STATUS bus-error check (`none` = no bus error), and the byte sitting in the
DATA register at the k-th data-register read. -/
structure BusEnv where
  startWriteRes : Option Error
  startReadRes : Option Error
  busErrorAt : Nat → Option Error
  dataAt : Nat → Nat

/-- A register-layer operation issued by an engine; an operation trace is the
ordered list of these. -/
inductive RegOp
  | startWrite (addr : Nat)
  | startRead (addr : Nat)
  | waitFor (interest : Flags)
  | checkStatus
  | writeData (b : Nat)
  | readData (b : Nat)
  | cmdStop
  | cmdRead
  | ackActSet
  | initDma
  | startDmaWrite (addr len : Nat)
  | startDmaRead (addr len : Nat)
  | dmaWriteTransfer (bytes : List Nat)
  | dmaReadTransfer (len : Nat)
deriving DecidableEq, Repr

/-- Result of an engine operation: success, a returned driver error, or a
fatal precondition failure (a Rust panic / failed assertion). -/
inductive Outcome (α : Type)
  | ok (a : α)
  | err (e : Error)
  | panicked
deriving DecidableEq, Repr

/-- The per-byte loop of `I2cFuture::write`: for each byte, wait for
{MB ∨ ERROR}, check the STATUS register for a bus error (aborting with it if
set), then write the byte to the DATA register.  `k` counts the bus-error
checks performed so far (indexing into the oracle). -/
def writeBytes (env : BusEnv) : List Nat → Nat → Option Error × List RegOp
  | [], _ => (none, [])
  | b :: rest, k =>
    match env.busErrorAt k with
    | some e =>
      (some e, [RegOp.waitFor (Flags.union Flags.MB Flags.ERROR), RegOp.checkStatus])
    | none =>
      let r := writeBytes env rest (k + 1)
      (r.1, RegOp.waitFor (Flags.union Flags.MB Flags.ERROR) ::
        RegOp.checkStatus :: RegOp.writeData b :: r.2)

/-- `I2cFuture::write` (non-DMA): start-write for the address (propagating a
start failure), the per-byte loop, then a STOP command. -/
def write (env : BusEnv) (addr : Nat) (bytes : List Nat) :
    Outcome Unit × List RegOp :=
  match env.startWriteRes with
  | some e => (.err e, [RegOp.startWrite addr])
  | none =>
    match writeBytes env bytes 0 with
    | (some e, tr) => (.err e, RegOp.startWrite addr :: tr)
    | (none, tr) => (.ok (), RegOp.startWrite addr :: (tr ++ [RegOp.cmdStop]))

/-- `I2cFuture::read_one`: wait for {SB ∨ ERROR}, then read the DATA register.
Note: the source performs no bus-error check here. -/
def read_one (env : BusEnv) (k : Nat) : Nat × List RegOp :=
  (env.dataAt k,
    [RegOp.waitFor (Flags.union Flags.SB Flags.ERROR), RegOp.readData (env.dataAt k)])

/-- The loop of `I2cFuture::read` after the first byte: for each remaining
buffer slot, issue an ACK command (`cmd_read`) and then `read_one`.  `k`
indexes the data-register reads performed so far. -/
def readRest (env : BusEnv) : Nat → Nat → List Nat × List RegOp
  | 0, _ => ([], [])
  | n + 1, k =>
    let o := read_one env k
    let r := readRest env n (k + 1)
    (o.1 :: r.1, (RegOp.cmdRead :: o.2) ++ r.2)

/-- `I2cFuture::read` (non-DMA) with a buffer of length `n`: start-read for the
address (propagating a start failure); then the first buffer slot is filled by
`*iter.next().expect("buffer len is at least 1") = self.read_one().await` —
the assignment's value operand `self.read_one().await` is evaluated before the
place expression, so the {SB ∨ ERROR} wait and the DATA-register read happen
first, and only then does `expect` panic when the buffer is empty; each
subsequent slot is preceded by an ACK command; finally the ack-action bit is
set in CTRLB (arranging a NACK) and the operation returns successfully. -/
def read (env : BusEnv) (addr : Nat) (n : Nat) :
    Outcome (List Nat) × List RegOp :=
  match env.startReadRes with
  | some e => (.err e, [RegOp.startRead addr])
  | none =>
    match n with
    | 0 =>
      let o := read_one env 0
      (.panicked, RegOp.startRead addr :: o.2)
    | m + 1 =>
      let o := read_one env 0
      let r := readRest env m 1
      (.ok (o.1 :: r.1),
        RegOp.startRead addr :: (o.2 ++ r.2 ++ [RegOp.ackActSet]))

/-- `I2cFuture::write_read` (non-DMA): `write` fully, then `read`, each
propagating its failure with the `?` operator. -/
def write_read (env : BusEnv) (addr : Nat) (wb : List Nat) (n : Nat) :
    Outcome Unit × List RegOp :=
  match write env addr wb with
  | (.ok _, tw) =>
    match read env addr n with
    | (.ok _, tr) => (.ok (), tw ++ tr)
    | (.err e, tr) => (.err e, tw ++ tr)
    | (.panicked, tr) => (.panicked, tw ++ tr)
  | (.err e, tw) => (.err e, tw)
  | (.panicked, tw) => (.panicked, tw)

/-- Oracle for the DMA engine path: the result of `init_dma_transfer`, and the
results of the bulk write and read transfers performed by the external DMA
engine. -/
structure DmaEnv where
  initRes : Option Error
  writeRes : Option DmacError
  readRes : Option DmacError

/-- `dma::I2cFuture::write`: `init_dma_transfer?`, then
`assert!(len > 0 && len <= 255)` (a fatal precondition failure otherwise),
then `start_dma_write(address, len)` and the bulk DMA transfer, whose failure
is wrapped as `Error::Dma`. -/
def dma_write (env : DmaEnv) (addr : Nat) (bytes : List Nat) :
    Outcome Unit × List RegOp :=
  match env.initRes with
  | some e => (.err e, [RegOp.initDma])
  | none =>
    let len := bytes.length
    if 0 < len ∧ len ≤ 255 then
      let tr := [RegOp.initDma, RegOp.startDmaWrite addr len,
        RegOp.dmaWriteTransfer bytes]
      match env.writeRes with
      | some e => (.err (Error.dma e), tr)
      | none => (.ok (), tr)
    else
      (.panicked, [RegOp.initDma])

/-- `dma::I2cFuture::read`: symmetric to `dma_write`, with the same
`assert!(len > 0 && len <= 255)` length precondition. -/
def dma_read (env : DmaEnv) (addr : Nat) (len : Nat) :
    Outcome Unit × List RegOp :=
  match env.initRes with
  | some e => (.err e, [RegOp.initDma])
  | none =>
    if 0 < len ∧ len ≤ 255 then
      let tr := [RegOp.initDma, RegOp.startDmaRead addr len,
        RegOp.dmaReadTransfer len]
      match env.readRes with
      | some e => (.err (Error.dma e), tr)
      | none => (.ok (), tr)
    else
      (.panicked, [RegOp.initDma])

/-- `dma::I2cFuture::write_read`: DMA `write` fully, then DMA `read`, each
propagating its failure with the `?` operator. -/
def dma_write_read (env : DmaEnv) (addr : Nat) (wb : List Nat) (rlen : Nat) :
    Outcome Unit × List RegOp :=
  match dma_write env addr wb with
  | (.ok _, tw) =>
    match dma_read env addr rlen with
    | (r, tr) => (r, tw ++ tr)
  | (.err e, tw) => (.err e, tw)
  | (.panicked, tw) => (.panicked, tw)

/-- The bytes written to the DATA register along a trace, in order. -/
def dataWrites : List RegOp → List Nat
  | [] => []
  | RegOp.writeData b :: tr => b :: dataWrites tr
  | _ :: tr => dataWrites tr

/-- Number of STOP commands in a trace. -/
def countStop : List RegOp → Nat
  | [] => 0
  | RegOp.cmdStop :: tr => countStop tr + 1
  | _ :: tr => countStop tr

/-- Number of ACK commands (`cmd_read`) in a trace. -/
def countAck : List RegOp → Nat
  | [] => 0
  | RegOp.cmdRead :: tr => countAck tr + 1
  | _ :: tr => countAck tr

/-- Number of waits on status flags in a trace. -/
def countWait : List RegOp → Nat
  | [] => 0
  | RegOp.waitFor _ :: tr => countWait tr + 1
  | _ :: tr => countWait tr

/-- Number of STATUS bus-error checks in a trace. -/
def countCheck : List RegOp → Nat
  | [] => 0
  | RegOp.checkStatus :: tr => countCheck tr + 1
  | _ :: tr => countCheck tr

/-- Register operations belonging to a write phase: start-write, waits on
{MB ∨ ERROR}, bus-error checks, data-register writes, STOP. -/
def isWritePhase : RegOp → Bool
  | RegOp.startWrite _ => true
  | RegOp.checkStatus => true
  | RegOp.writeData _ => true
  | RegOp.cmdStop => true
  | RegOp.waitFor f => f == Flags.union Flags.MB Flags.ERROR
  | _ => false

/-- Register operations belonging to a read phase: start-read, waits on
{SB ∨ ERROR}, ACK commands, data-register reads, the NACK arrangement. -/
def isReadPhase : RegOp → Bool
  | RegOp.startRead _ => true
  | RegOp.cmdRead => true
  | RegOp.readData _ => true
  | RegOp.ackActSet => true
  | RegOp.waitFor f => f == Flags.union Flags.SB Flags.ERROR
  | _ => false

/-- A register-layer oracle that reports a bus error at every STATUS check:
the ERROR condition is pending throughout the transaction. -/
def envBusErr : BusEnv :=
  ⟨none, none, fun _ => some Error.busError, fun _ => 42⟩

/-- Claim C1: the spec says `read` checks the error flag after each wait and
returns Ok only if no error flag was ever observed.  The code does not:
against an oracle reporting a bus error at every STATUS check, `read` of two
bytes performs no bus-error check at all (its trace contains no STATUS check
operation) and still returns Ok — each wait on {SB ∨ ERROR} is followed
directly by a DATA-register read. -/
theorem read_never_checks_bus_error :
    (read envBusErr 80 2).1 = Outcome.ok [42, 42] ∧
    countCheck (read envBusErr 80 2).2 = 0 ∧
    (read envBusErr 80 2).2 =
      [RegOp.startRead 80, RegOp.waitFor (Flags.union Flags.SB Flags.ERROR),
        RegOp.readData 42, RegOp.cmdRead,
        RegOp.waitFor (Flags.union Flags.SB Flags.ERROR), RegOp.readData 42,
        RegOp.ackActSet] := by
  refine ⟨rfl, rfl, rfl⟩

/-- Claim C2: the spec says the handler is a no-op when no recognized flag is
pending.  In the code the guard `Flags::all().contains(flags_pending)` is
vacuously true (the pending set is truncated to recognized bits), so with an
empty pending set the handler still invokes `wake()` on the waker slot — it
disables no interrupt-enable bits (INTENCLR written with no bits set), but it
is not a no-op. -/
theorem on_interrupt_nothing_pending_still_wakes (st : WaitState) :
    on_interrupt Flags.empty st = (st, true) := by
  cases st with
  | mk i wk =>
    cases i with
    | mk a b c =>
      simp [on_interrupt, Flags.contains, Flags.inter, Flags.empty, Flags.all,
        Flags.clear]

/-- Claim C6: whenever the interest set intersects the status at call time,
`wait_flags` returns Ready on its first poll, registering no waker and leaving
the interrupt-enable bits untouched (the state is returned unchanged). -/
theorem wait_flags_fast_path (F : Flags) (w : Nat) (s1 s2 : Flags)
    (st : WaitState) (h : Flags.intersects F s1 = true) :
    wait_flags_poll F w s1 s2 st = (PollRes.ready, st) := by
  simp [wait_flags_poll, h]

/-- Witness for `wait_flags_fast_path` at a concrete interest set, status and
state. -/
theorem wait_flags_fast_path_witness :
    Flags.intersects Flags.MB (Flags.union Flags.MB Flags.SB) = true ∧
    wait_flags_poll Flags.MB 3 (Flags.union Flags.MB Flags.SB) Flags.empty
        ⟨Flags.ERROR, none⟩ = (PollRes.ready, ⟨Flags.ERROR, none⟩) :=
  ⟨by decide,
    wait_flags_fast_path Flags.MB 3 (Flags.union Flags.MB Flags.SB) Flags.empty
      ⟨Flags.ERROR, none⟩ (by decide)⟩

/-- Claim C3 counterexample: a `wait_flags` slow path with interest
{MB ∨ ERROR} followed by a wake from the interrupt handler with only MB
pending leaves the ERROR interrupt-enable bit set — after the wake the
instance's interrupt-enable set is not empty, refuting "upon wake, no
interrupt-enable bits for that instance remain set". -/
theorem wake_leaves_enable_bit_set :
    (wait_flags_poll (Flags.union Flags.MB Flags.ERROR) 7 Flags.empty
        Flags.empty ⟨Flags.empty, none⟩).1 = PollRes.pending ∧
    (on_interrupt Flags.MB
        (wait_flags_poll (Flags.union Flags.MB Flags.ERROR) 7 Flags.empty
          Flags.empty ⟨Flags.empty, none⟩).2).2 = true ∧
    (on_interrupt Flags.MB
        (wait_flags_poll (Flags.union Flags.MB Flags.ERROR) 7 Flags.empty
          Flags.empty ⟨Flags.empty, none⟩).2).1.intenset ≠ Flags.empty := by
  decide

/-- Claim C3 (amended): when `wait_flags` with interest set `F` does not take
the fast path, exactly one waker is registered in the slot and interrupt
sources for exactly the flags in `F` are enabled; when the interrupt handler
subsequently runs with recognized pending set `p` and wakes the task, the
enable bits for exactly the flags of `p` are cleared — enable bits for
interest flags not in `p` remain set. -/
theorem wait_flags_slow_path_then_wake (F : Flags) (w : Nat) (s1 s2 p : Flags)
    (st : WaitState) (h : Flags.intersects F s1 = false) :
    (wait_flags_poll F w s1 s2 st).2.waker = some w ∧
    (wait_flags_poll F w s1 s2 st).2.intenset = F ∧
    (on_interrupt p (wait_flags_poll F w s1 s2 st).2).2 = true ∧
    (on_interrupt p (wait_flags_poll F w s1 s2 st).2).1.intenset
      = Flags.clear F p := by
  cases F with
  | mk a b c =>
    cases p with
    | mk x y z =>
      cases st with
      | mk i wk =>
        cases i with
        | mk u v t =>
          cases hs2 : Flags.intersects (Flags.mk a b c) s2 <;>
            simp [wait_flags_poll, h, hs2, on_interrupt, Flags.clear,
              Flags.union, Flags.all, Flags.contains, Flags.inter]

/-- Witness for `wait_flags_slow_path_then_wake`: interest {MB ∨ ERROR},
status SB at both reads (never intersecting the interest), prior enable state
SB, then a wake with only MB pending. -/
theorem wait_flags_slow_path_then_wake_witness :
    Flags.intersects (Flags.union Flags.MB Flags.ERROR) Flags.SB = false ∧
    ((wait_flags_poll (Flags.union Flags.MB Flags.ERROR) 7 Flags.SB Flags.SB
        ⟨Flags.SB, none⟩).2.waker = some 7 ∧
      (wait_flags_poll (Flags.union Flags.MB Flags.ERROR) 7 Flags.SB Flags.SB
        ⟨Flags.SB, none⟩).2.intenset = Flags.union Flags.MB Flags.ERROR ∧
      (on_interrupt Flags.MB
        (wait_flags_poll (Flags.union Flags.MB Flags.ERROR) 7 Flags.SB Flags.SB
          ⟨Flags.SB, none⟩).2).2 = true ∧
      (on_interrupt Flags.MB
        (wait_flags_poll (Flags.union Flags.MB Flags.ERROR) 7 Flags.SB Flags.SB
          ⟨Flags.SB, none⟩).2).1.intenset
        = Flags.clear (Flags.union Flags.MB Flags.ERROR) Flags.MB) :=
  ⟨by decide,
    wait_flags_slow_path_then_wake (Flags.union Flags.MB Flags.ERROR) 7
      Flags.SB Flags.SB Flags.MB ⟨Flags.SB, none⟩ (by decide)⟩

/-- A register-layer oracle that always reports the awaited flags as pending,
never reports an error, and holds byte 7 in DATA. -/
def envOk : BusEnv :=
  ⟨none, none, fun _ => none, fun _ => 7⟩

/-- A register-layer oracle whose second STATUS check (index 1) reports a bus
error; all other checks are clean. -/
def envErrAt1 : BusEnv :=
  ⟨none, none, fun k => if k == 1 then some Error.busError else none, fun _ => 0⟩

/-- `dataWrites` distributes over trace concatenation. -/
theorem dataWrites_append (l1 l2 : List RegOp) :
    dataWrites (l1 ++ l2) = dataWrites l1 ++ dataWrites l2 := by
  induction l1 with
  | nil => simp [dataWrites]
  | cons op tr ih => cases op <;> simp [dataWrites, ih]

/-- `countStop` is additive over trace concatenation. -/
theorem countStop_append (l1 l2 : List RegOp) :
    countStop (l1 ++ l2) = countStop l1 + countStop l2 := by
  induction l1 with
  | nil => simp [countStop]
  | cons op tr ih => cases op <;> simp [countStop, ih] <;> omega

/-- `countAck` is additive over trace concatenation. -/
theorem countAck_append (l1 l2 : List RegOp) :
    countAck (l1 ++ l2) = countAck l1 + countAck l2 := by
  induction l1 with
  | nil => simp [countAck]
  | cons op tr ih => cases op <;> simp [countAck, ih] <;> omega

/-- The per-byte write loop against a clean oracle: no error, the data writes
are exactly the input bytes in order, and no STOP is issued inside the loop. -/
theorem writeBytes_no_error (env : BusEnv)
    (h : ∀ k, env.busErrorAt k = none) :
    ∀ (bytes : List Nat) (i : Nat),
      (writeBytes env bytes i).1 = none ∧
      dataWrites (writeBytes env bytes i).2 = bytes ∧
      countStop (writeBytes env bytes i).2 = 0 := by
  intro bytes
  induction bytes with
  | nil => intro i; simp [writeBytes, dataWrites, countStop]
  | cons b rest ih =>
    intro i
    obtain ⟨h1, h2, h3⟩ := ih (i + 1)
    refine ⟨?_, ?_, ?_⟩
    · simp [writeBytes, h i, h1]
    · simp [writeBytes, h i, dataWrites, h2]
    · simp [writeBytes, h i, countStop, h3]

/-- Claim C4: against a register layer that always reports the awaited flags
as pending and never reports an error, `write` of a non-empty byte sequence
succeeds, writes exactly the bytes of the sequence into the DATA register in
order, and issues exactly one STOP command. -/
theorem write_sends_all_bytes_one_stop (env : BusEnv) (addr : Nat)
    (bytes : List Nat) (hs : env.startWriteRes = none)
    (he : ∀ k, env.busErrorAt k = none) (hne : bytes ≠ []) :
    (write env addr bytes).1 = Outcome.ok () ∧
    dataWrites (write env addr bytes).2 = bytes ∧
    countStop (write env addr bytes).2 = 1 := by
  obtain ⟨h1, h2, h3⟩ := writeBytes_no_error env he bytes 0
  rcases hwb : writeBytes env bytes 0 with ⟨r, tr⟩
  rw [hwb] at h1 h2 h3
  simp only at h1 h2 h3
  subst h1
  refine ⟨?_, ?_, ?_⟩
  · simp [write, hs, hwb]
  · simp [write, hs, hwb, dataWrites, dataWrites_append, h2]
  · simp [write, hs, hwb, countStop, countStop_append, h3]

/-- Witness for `write_sends_all_bytes_one_stop` on the clean oracle with
bytes [1, 2, 3]. -/
theorem write_sends_all_bytes_one_stop_witness :
    (write envOk 80 [1, 2, 3]).1 = Outcome.ok () ∧
    dataWrites (write envOk 80 [1, 2, 3]).2 = [1, 2, 3] ∧
    countStop (write envOk 80 [1, 2, 3]).2 = 1 :=
  write_sends_all_bytes_one_stop envOk 80 [1, 2, 3] rfl (fun _ => rfl)
    (by decide)

/-- Claim C10: `write` with an empty byte slice, when start-write succeeds,
returns Ok, performs zero waits and zero DATA-register writes, and still
issues exactly one STOP: its trace is exactly start-write then STOP. -/
theorem write_empty_ok_one_stop (env : BusEnv) (addr : Nat)
    (hs : env.startWriteRes = none) :
    (write env addr []).1 = Outcome.ok () ∧
    countWait (write env addr []).2 = 0 ∧
    dataWrites (write env addr []).2 = [] ∧
    countStop (write env addr []).2 = 1 ∧
    (write env addr []).2 = [RegOp.startWrite addr, RegOp.cmdStop] := by
  refine ⟨?_, ?_, ?_, ?_, ?_⟩ <;>
    simp [write, writeBytes, hs, countWait, countStop, dataWrites]

/-- Witness for `write_empty_ok_one_stop` on the clean oracle. -/
theorem write_empty_ok_one_stop_witness :
    (write envOk 80 []).1 = Outcome.ok () ∧
    countWait (write envOk 80 []).2 = 0 ∧
    dataWrites (write envOk 80 []).2 = [] ∧
    countStop (write envOk 80 []).2 = 1 ∧
    (write envOk 80 []).2 = [RegOp.startWrite 80, RegOp.cmdStop] :=
  write_empty_ok_one_stop envOk 80 rfl

/-- The post-first-byte read loop: it returns as many bytes as requested and
issues exactly one ACK command per byte. -/
theorem readRest_spec (env : BusEnv) :
    ∀ (n k : Nat),
      (readRest env n k).1.length = n ∧
      countAck (readRest env n k).2 = n := by
  intro n
  induction n with
  | zero => intro k; simp [readRest, countAck]
  | succ m ih =>
    intro k
    obtain ⟨h1, h2⟩ := ih (k + 1)
    refine ⟨by simp [readRest, h1], ?_⟩
    simp [readRest, read_one, countAck, countAck_append, h2]

/-- Claim C5: `read` with a buffer of length `n ≥ 1` and no error returns Ok
with `n` bytes, issues exactly `n − 1` ACK commands, and its last register
operation is setting the ack-action bit (arranging NACK). -/
theorem read_ack_count_and_nack (env : BusEnv) (addr n : Nat)
    (hs : env.startReadRes = none) (he : ∀ k, env.busErrorAt k = none)
    (hn : 1 ≤ n) :
    (∃ bs, (read env addr n).1 = Outcome.ok bs ∧ bs.length = n) ∧
    countAck (read env addr n).2 = n - 1 ∧
    ∃ pre, (read env addr n).2 = pre ++ [RegOp.ackActSet] := by
  obtain ⟨m, rfl⟩ : ∃ m, n = m + 1 := ⟨n - 1, by omega⟩
  obtain ⟨h1, h2⟩ := readRest_spec env m 1
  refine ⟨⟨env.dataAt 0 :: (readRest env m 1).1, ?_, by simp [h1]⟩, ?_, ?_⟩
  · simp [read, hs, read_one]
  · simp [read, hs, read_one, countAck, countAck_append, h2]
  · exact ⟨RegOp.startRead addr :: ((read_one env 0).2 ++ (readRest env m 1).2),
      by simp [read, hs]⟩

/-- Witness for `read_ack_count_and_nack` on the clean oracle with a 3-byte
buffer. -/
theorem read_ack_count_and_nack_witness :
    (∃ bs, (read envOk 80 3).1 = Outcome.ok bs ∧ bs.length = 3) ∧
    countAck (read envOk 80 3).2 = 3 - 1 ∧
    ∃ pre, (read envOk 80 3).2 = pre ++ [RegOp.ackActSet] :=
  read_ack_count_and_nack envOk 80 3 rfl (fun _ => rfl) (by decide)

/-- The per-byte write loop when the `k`-th STATUS check is the first to
report a bus error: the loop aborts with that error, only the first `k` bytes
have been written to DATA, and no STOP is issued. -/
theorem writeBytes_error (env : BusEnv) :
    ∀ (bytes : List Nat) (k i : Nat) (e : Error),
      k < bytes.length →
      (∀ j, j < k → env.busErrorAt (j + i) = none) →
      env.busErrorAt (k + i) = some e →
      (writeBytes env bytes i).1 = some e ∧
      dataWrites (writeBytes env bytes i).2 = bytes.take k ∧
      countStop (writeBytes env bytes i).2 = 0 := by
  intro bytes
  induction bytes with
  | nil => intro k i e hk; simp at hk
  | cons b rest ih =>
    intro k i e hk hpre herr
    cases k with
    | zero =>
      have h0 : env.busErrorAt i = some e := by simpa using herr
      simp [writeBytes, h0, dataWrites, countStop]
    | succ k' =>
      have h0 : env.busErrorAt i = none := by
        have := hpre 0 (Nat.succ_pos k')
        simpa using this
      have hpre' : ∀ j, j < k' → env.busErrorAt (j + (i + 1)) = none := by
        intro j hj
        have hh := hpre (j + 1) (by omega)
        have heq : j + 1 + i = j + (i + 1) := by omega
        rwa [heq] at hh
      have herr' : env.busErrorAt (k' + (i + 1)) = some e := by
        have heq : k' + 1 + i = k' + (i + 1) := by omega
        rwa [heq] at herr
      obtain ⟨h1, h2, h3⟩ := ih k' (i + 1) e (by simpa using hk) hpre' herr'
      refine ⟨by simp [writeBytes, h0, h1], ?_, ?_⟩
      · simp [writeBytes, h0, dataWrites, h2]
      · simp [writeBytes, h0, countStop, h3]

/-- Claim C7: if a bus error is first observed at the `k`-th wait point of
`write` (before byte `k` is written), the operation returns that error
immediately: exactly the first `k` bytes were written to DATA (none at
position `k` or later), and no STOP is issued. -/
theorem write_aborts_on_bus_error (env : BusEnv) (addr : Nat)
    (bytes : List Nat) (k : Nat) (e : Error)
    (hs : env.startWriteRes = none) (hk : k < bytes.length)
    (hpre : ∀ j, j < k → env.busErrorAt j = none)
    (herr : env.busErrorAt k = some e) :
    (write env addr bytes).1 = Outcome.err e ∧
    dataWrites (write env addr bytes).2 = bytes.take k ∧
    countStop (write env addr bytes).2 = 0 := by
  have hpre0 : ∀ j, j < k → env.busErrorAt (j + 0) = none := by simpa using hpre
  have herr0 : env.busErrorAt (k + 0) = some e := by simpa using herr
  obtain ⟨h1, h2, h3⟩ := writeBytes_error env bytes k 0 e hk hpre0 herr0
  rcases hwb : writeBytes env bytes 0 with ⟨r, tr⟩
  rw [hwb] at h1 h2 h3
  simp only at h1 h2 h3
  subst h1
  refine ⟨by simp [write, hs, hwb], ?_, ?_⟩
  · simp [write, hs, hwb, dataWrites, h2]
  · simp [write, hs, hwb, countStop, h3]

/-- Witness for `write_aborts_on_bus_error`: the second STATUS check reports a
bus error, so of [5, 6, 7] only byte 5 is written and no STOP is issued. -/
theorem write_aborts_on_bus_error_witness :
    (write envErrAt1 80 [5, 6, 7]).1 = Outcome.err Error.busError ∧
    dataWrites (write envErrAt1 80 [5, 6, 7]).2 = [5] ∧
    countStop (write envErrAt1 80 [5, 6, 7]).2 = 0 :=
  write_aborts_on_bus_error envErrAt1 80 [5, 6, 7] 1 Error.busError rfl
    (by decide)
    (by
      intro j hj
      have hj0 : j = 0 := by omega
      subst hj0
      rfl)
    rfl

/-- A DMA-path oracle on which initialization and both bulk transfers
succeed. -/
def denvOk : DmaEnv := ⟨none, none, none⟩

/-- Every operation issued by the per-byte write loop is a write-phase
operation. -/
theorem writeBytes_phase (env : BusEnv) :
    ∀ (bytes : List Nat) (i : Nat) (op : RegOp),
      op ∈ (writeBytes env bytes i).2 → isWritePhase op = true := by
  intro bytes
  induction bytes with
  | nil => intro i op h; simp [writeBytes] at h
  | cons b rest ih =>
    intro i op h
    cases hbe : env.busErrorAt i with
    | some e =>
      simp [writeBytes, hbe] at h
      rcases h with rfl | rfl <;> rfl
    | none =>
      simp [writeBytes, hbe] at h
      rcases h with rfl | rfl | rfl | h
      · rfl
      · rfl
      · rfl
      · exact ih (i + 1) op h

/-- Every operation issued by `write` is a write-phase operation. -/
theorem write_phase (env : BusEnv) (addr : Nat) (bytes : List Nat) :
    ∀ op ∈ (write env addr bytes).2, isWritePhase op = true := by
  intro op h
  cases hs : env.startWriteRes with
  | some e =>
    simp [write, hs] at h
    subst h
    rfl
  | none =>
    have hph := writeBytes_phase env bytes 0
    rcases hwb : writeBytes env bytes 0 with ⟨r, tr⟩
    rw [hwb] at hph
    simp only at hph
    cases r with
    | some e =>
      simp [write, hs, hwb] at h
      rcases h with rfl | h
      · rfl
      · exact hph op h
    | none =>
      simp [write, hs, hwb] at h
      rcases h with rfl | h | rfl
      · rfl
      · exact hph op h
      · rfl

/-- Every operation issued by the post-first-byte read loop is a read-phase
operation. -/
theorem readRest_phase (env : BusEnv) :
    ∀ (n k : Nat) (op : RegOp),
      op ∈ (readRest env n k).2 → isReadPhase op = true := by
  intro n
  induction n with
  | zero => intro k op h; simp [readRest] at h
  | succ m ih =>
    intro k op h
    simp [readRest, read_one] at h
    rcases h with rfl | rfl | rfl | h
    · rfl
    · rfl
    · rfl
    · exact ih (k + 1) op h

/-- Every operation issued by `read` is a read-phase operation. -/
theorem read_phase (env : BusEnv) (addr n : Nat) :
    ∀ op ∈ (read env addr n).2, isReadPhase op = true := by
  intro op h
  cases hs : env.startReadRes with
  | some e =>
    simp [read, hs] at h
    subst h
    rfl
  | none =>
    cases n with
    | zero =>
      simp [read, hs, read_one] at h
      rcases h with rfl | rfl | rfl <;> rfl
    | succ m =>
      have hph := readRest_phase env m 1
      simp [read, hs, read_one] at h
      rcases h with rfl | rfl | rfl | h | rfl
      · rfl
      · rfl
      · rfl
      · exact hph op h
      · rfl

/-- Claim C8: `write_read` (non-DMA and DMA) performs all write-phase register
operations before any read-phase operation: its trace is the `write` trace
followed by the `read` trace, every operation of the `write` trace is a
write-phase operation, every operation of the `read` trace is a read-phase
operation, and when the write phase does not succeed the trace is the `write`
trace alone — the read phase performs no operations. -/
theorem write_read_write_phase_first (env : BusEnv) (denv : DmaEnv)
    (addr : Nat) (wb : List Nat) (n : Nat) (dwb : List Nat) (rlen : Nat) :
    ((write env addr wb).1 = Outcome.ok () →
      (write_read env addr wb n).2
        = (write env addr wb).2 ++ (read env addr n).2) ∧
    ((write env addr wb).1 ≠ Outcome.ok () →
      (write_read env addr wb n).2 = (write env addr wb).2) ∧
    (∀ op ∈ (write env addr wb).2, isWritePhase op = true) ∧
    (∀ op ∈ (read env addr n).2, isReadPhase op = true) ∧
    ((dma_write denv addr dwb).1 = Outcome.ok () →
      (dma_write_read denv addr dwb rlen).2
        = (dma_write denv addr dwb).2 ++ (dma_read denv addr rlen).2) ∧
    ((dma_write denv addr dwb).1 ≠ Outcome.ok () →
      (dma_write_read denv addr dwb rlen).2 = (dma_write denv addr dwb).2) := by
  refine ⟨?_, ?_, write_phase env addr wb, read_phase env addr n, ?_, ?_⟩
  · intro hok
    rcases hw : write env addr wb with ⟨wres, tw⟩
    rw [hw] at hok
    simp only at hok
    subst hok
    rcases hr : read env addr n with ⟨rr, tr⟩
    cases rr <;> simp [write_read, hw, hr]
  · intro hne
    rcases hw : write env addr wb with ⟨wres, tw⟩
    rw [hw] at hne
    simp only at hne
    cases wres with
    | ok a => cases a; exact absurd rfl hne
    | err e => simp [write_read, hw]
    | panicked => simp [write_read, hw]
  · intro hok
    rcases hw : dma_write denv addr dwb with ⟨wres, tw⟩
    rw [hw] at hok
    simp only at hok
    subst hok
    rcases hr : dma_read denv addr rlen with ⟨rr, tr⟩
    simp [dma_write_read, hw, hr]
  · intro hne
    rcases hw : dma_write denv addr dwb with ⟨wres, tw⟩
    rw [hw] at hne
    simp only at hne
    cases wres with
    | ok a => cases a; exact absurd rfl hne
    | err e => simp [dma_write_read, hw]
    | panicked => simp [dma_write_read, hw]

/-- Witness for `write_read_write_phase_first` on the clean oracles, writing
[1] then reading one byte (non-DMA), and a DMA write of [2] then a DMA read of
one byte. -/
theorem write_read_write_phase_first_witness :
    ((write envOk 80 [1]).1 = Outcome.ok () →
      (write_read envOk 80 [1] 1).2
        = (write envOk 80 [1]).2 ++ (read envOk 80 1).2) ∧
    ((write envOk 80 [1]).1 ≠ Outcome.ok () →
      (write_read envOk 80 [1] 1).2 = (write envOk 80 [1]).2) ∧
    (∀ op ∈ (write envOk 80 [1]).2, isWritePhase op = true) ∧
    (∀ op ∈ (read envOk 80 1).2, isReadPhase op = true) ∧
    ((dma_write denvOk 80 [2]).1 = Outcome.ok () →
      (dma_write_read denvOk 80 [2] 1).2
        = (dma_write denvOk 80 [2]).2 ++ (dma_read denvOk 80 1).2) ∧
    ((dma_write denvOk 80 [2]).1 ≠ Outcome.ok () →
      (dma_write_read denvOk 80 [2] 1).2 = (dma_write denvOk 80 [2]).2) :=
  write_read_write_phase_first envOk denvOk 80 [1] 1 [2] 1

/-- Claim C9: the DMA `write` and `read` length preconditions: lengths 1 and
255 pass the `assert!(len > 0 && len <= 255)` check and proceed to start the
transfer; lengths 0 and 256 end in the fatal precondition failure with no
transfer started (only `init_dma_transfer` has run); and the non-DMA `read`
with an empty buffer is a fatal precondition violation: the
`expect("buffer len is at least 1")` panic, occurring after start-read and
after the first `read_one` (the assignment's value operand — a {SB ∨ ERROR}
wait and a DATA-register read — is evaluated before the place expression
panics). -/
theorem length_preconditions_fatal (denv : DmaEnv) (env : BusEnv) (addr : Nat)
    (hinit : denv.initRes = none) (hsr : env.startReadRes = none) :
    (∀ bytes : List Nat, bytes.length = 1 ∨ bytes.length = 255 →
      (dma_write denv addr bytes).2
        = [RegOp.initDma, RegOp.startDmaWrite addr bytes.length,
            RegOp.dmaWriteTransfer bytes] ∧
      (dma_write denv addr bytes).1 ≠ Outcome.panicked) ∧
    ((dma_write denv addr []).1 = Outcome.panicked ∧
      (dma_write denv addr []).2 = [RegOp.initDma]) ∧
    (∀ bytes : List Nat, bytes.length = 256 →
      (dma_write denv addr bytes).1 = Outcome.panicked ∧
      (dma_write denv addr bytes).2 = [RegOp.initDma]) ∧
    (∀ len : Nat, len = 1 ∨ len = 255 →
      (dma_read denv addr len).2
        = [RegOp.initDma, RegOp.startDmaRead addr len,
            RegOp.dmaReadTransfer len] ∧
      (dma_read denv addr len).1 ≠ Outcome.panicked) ∧
    ((dma_read denv addr 0).1 = Outcome.panicked ∧
      (dma_read denv addr 0).2 = [RegOp.initDma]) ∧
    ((dma_read denv addr 256).1 = Outcome.panicked ∧
      (dma_read denv addr 256).2 = [RegOp.initDma]) ∧
    ((read env addr 0).1 = Outcome.panicked ∧
      (read env addr 0).2
        = [RegOp.startRead addr,
            RegOp.waitFor (Flags.union Flags.SB Flags.ERROR),
            RegOp.readData (env.dataAt 0)]) := by
  refine ⟨?_, ?_, ?_, ?_, ?_, ?_, ?_⟩
  · intro bytes hlen
    have hcond : 0 < bytes.length ∧ bytes.length ≤ 255 := by
      rcases hlen with h | h <;> omega
    cases hwres : denv.writeRes <;>
      simp [dma_write, hinit, hcond, hwres]
  · simp [dma_write, hinit]
  · intro bytes hlen
    have hcond : ¬(0 < bytes.length ∧ bytes.length ≤ 255) := by omega
    simp [dma_write, hinit, hcond]
  · intro len hlen
    have hcond : 0 < len ∧ len ≤ 255 := by
      rcases hlen with h | h <;> omega
    cases hrres : denv.readRes <;>
      simp [dma_read, hinit, hcond, hrres]
  · simp [dma_read, hinit]
  · simp [dma_read, hinit]
  · simp [read, read_one, hsr]

/-- Witness for `length_preconditions_fatal` on the clean DMA and register
oracles. -/
theorem length_preconditions_fatal_witness :
    (∀ bytes : List Nat, bytes.length = 1 ∨ bytes.length = 255 →
      (dma_write denvOk 80 bytes).2
        = [RegOp.initDma, RegOp.startDmaWrite 80 bytes.length,
            RegOp.dmaWriteTransfer bytes] ∧
      (dma_write denvOk 80 bytes).1 ≠ Outcome.panicked) ∧
    ((dma_write denvOk 80 []).1 = Outcome.panicked ∧
      (dma_write denvOk 80 []).2 = [RegOp.initDma]) ∧
    (∀ bytes : List Nat, bytes.length = 256 →
      (dma_write denvOk 80 bytes).1 = Outcome.panicked ∧
      (dma_write denvOk 80 bytes).2 = [RegOp.initDma]) ∧
    (∀ len : Nat, len = 1 ∨ len = 255 →
      (dma_read denvOk 80 len).2
        = [RegOp.initDma, RegOp.startDmaRead 80 len,
            RegOp.dmaReadTransfer len] ∧
      (dma_read denvOk 80 len).1 ≠ Outcome.panicked) ∧
    ((dma_read denvOk 80 0).1 = Outcome.panicked ∧
      (dma_read denvOk 80 0).2 = [RegOp.initDma]) ∧
    ((dma_read denvOk 80 256).1 = Outcome.panicked ∧
      (dma_read denvOk 80 256).2 = [RegOp.initDma]) ∧
    ((read envOk 80 0).1 = Outcome.panicked ∧
      (read envOk 80 0).2
        = [RegOp.startRead 80,
            RegOp.waitFor (Flags.union Flags.SB Flags.ERROR),
            RegOp.readData 7]) :=
  length_preconditions_fatal denvOk envOk 80 rfl rfl

end AsyncI2c
